import Mathlib

/-
  Verification development for the kanban board synchronization core
  (boardguard-nexus).  The definitions below are a shallow embedding of
  the TypeScript source:

  * `KanbanBoard.tsx`     — `visibleLists`, `handleDragOver`, `handleDragEnd`
  * `useStaffUsers.ts`    — hook `useDatabaseBoardState`: `updateLists`,
                            `updateCardPosition`, `addCard`, `deleteCard`,
                            the `board-updated` listener and the periodic
                            sync interval
  * `useCardActions.ts`   — action (ledger) record creation
  * `db_disabled/services.ts` — `DatabaseService`: `updateCard`,
                            `createCard`, `deleteCard`, `getListsByBoard`,
                            `saveKanbanData`, `createCardAction`,
                            `getCardActions`

  Conventions of the embedding:
  * JavaScript strings stay `String`; integer columns of the SQLite store
    are `Int` (the client can pass `-1` through `findIndex`).
  * `undefined` / absent object fields become `Option` fields; an absent
    bind parameter reaches SQL as NULL, so `COALESCE(?, col)` keeps the
    old column value exactly when the `Option` is `none`.
  * JSON-serialized payloads (labels, attachments, members) are kept as
    opaque `Option String` values: `JSON.stringify` is injective on them
    and no claim inspects their contents.
  * Asynchronous store calls are modelled by a `storeOk : Bool` flag for
    one logical operation: `true` means every awaited call in the `try`
    block succeeds, `false` means the first awaited call throws and the
    `catch` branch runs.
  * `Date.now()` timestamps and generated identifiers are inputs supplied
    by the environment.
-/

namespace Kanban

/-- Column visibility, source values open, closed, hidden
(the spec calls them open / restricted / admin-only). -/
inductive LType where
  | open_
  | closed
  | hidden
  deriving DecidableEq, Repr

/-- Viewer role, source values default, mod, admin. -/
inductive Role where
  | default
  | mod
  | admin
  deriving DecidableEq, Repr

/-- A ledger record (`CardAction` of `useCardActions.ts`, row of the
`card_actions` table). -/
structure ActionRow where
  id : String
  card_id : String
  user_id : String
  username : String
  action : String
  fromList : Option String := none
  toList : Option String := none
  timestamp : Nat
  deriving DecidableEq, Repr

/-- A client-side card (`KanbanCardData`): the cards of a list are an
ordered array, there is no position field on the client. -/
structure CCard where
  id : String
  title : String
  description : Option String := none
  dueDate : Option Int := none
  labels : Option String := none
  attachments : Option String := none
  members : Option String := none
  actions : List ActionRow := []
  deriving DecidableEq, Repr

/-- A client-side list (`KanbanListData`). -/
structure KList where
  id : String
  title : String
  type : LType
  cards : List CCard
  deriving DecidableEq, Repr

/-- Model of `visibleLists` of `KanbanBoard.tsx` (lines 93-105): filter the lists
according to the public-view flag and the viewer role. -/
def visibleLists (isPublicView : Bool) (role : Role) (lists : List KList) : List KList :=
  lists.filter fun l =>
    if isPublicView then l.type == LType.open_
    else
      match role with
      | Role.admin => true
      | Role.mod => true
      | Role.default => l.type == LType.open_

/-- A row of the `cards` table (`db_disabled/types.ts` / schema used by
`DatabaseService`).  `labels`, `attachments`, `members` hold the
JSON-serialized payloads as opaque strings. -/
structure CardRow where
  id : String
  list_id : String
  title : String
  description : Option String := none
  position : Int
  due_date : Option Int := none
  labels : Option String := none
  attachments : Option String := none
  members : Option String := none
  deriving DecidableEq, Repr

/-- A row of the `lists` table. -/
structure ListRow where
  id : String
  title : String
  type : LType
  position : Int
  deriving DecidableEq, Repr

/-- The durable store (single board): the `lists`, `cards` and
`card_actions` tables. -/
structure Store where
  lists : List ListRow
  cards : List CardRow
  actions : List ActionRow
  deriving DecidableEq, Repr

/-- The update object accepted by `DatabaseService.updateCard`
(services.ts lines 131-157): every field optional; absent fields are
bound as SQL NULL. -/
structure CardUpdates where
  title : Option String := none
  description : Option String := none
  position : Option Int := none
  due_date : Option Int := none
  labels : Option String := none
  attachments : Option String := none
  members : Option String := none
  list_id : Option String := none
  deriving DecidableEq, Repr

/-- Model of `COALESCE(?, col)` for a nullable column: a present parameter
overwrites, an absent (NULL) parameter keeps the stored value. -/
def coalesceOpt {α : Type} (u : Option α) (old : Option α) : Option α :=
  match u with
  | some v => some v
  | none => old

/-- The `SET col = COALESCE(?, col)` row transformation of
`DatabaseService.updateCard`: a NULL (absent) parameter keeps the stored
value, a present parameter overwrites it. -/
def coalesceRow (r : CardRow) (u : CardUpdates) : CardRow :=
  { id := r.id
    list_id := u.list_id.getD r.list_id
    title := u.title.getD r.title
    description := coalesceOpt u.description r.description
    position := u.position.getD r.position
    due_date := coalesceOpt u.due_date r.due_date
    labels := coalesceOpt u.labels r.labels
    attachments := coalesceOpt u.attachments r.attachments
    members := coalesceOpt u.members r.members }

/-- Model of `DatabaseService.updateCard`: `UPDATE cards SET … WHERE id = ?`. -/
def dbUpdateCard (s : Store) (cardId : String) (u : CardUpdates) : Store :=
  { s with cards := s.cards.map fun r => if r.id == cardId then coalesceRow r u else r }

/-- Model of `DatabaseService.createCard`: `INSERT INTO cards …` (appends the row). -/
def dbCreateCard (s : Store) (r : CardRow) : Store :=
  { s with cards := s.cards ++ [r] }

/-- Model of `DatabaseService.deleteCard`: `DELETE FROM cards WHERE id = ?`. -/
def dbDeleteCard (s : Store) (cardId : String) : Store :=
  { s with cards := s.cards.filter fun r => ¬(r.id == cardId) }

/-- Model of `DatabaseService.createCardAction`: `INSERT INTO card_actions …`. -/
def dbCreateAction (s : Store) (a : ActionRow) : Store :=
  { s with actions := s.actions ++ [a] }

/-- Insertion step for the `ORDER BY position ASC` model. -/
def insertByPos {α : Type} (pos : α → Int) (x : α) : List α → List α
  | [] => [x]
  | y :: ys => if pos x ≤ pos y then x :: y :: ys else y :: insertByPos pos x ys

/-- Deterministic model of SQL `ORDER BY position ASC` (insertion sort). -/
def sortByPos {α : Type} (pos : α → Int) : List α → List α
  | [] => []
  | x :: xs => insertByPos pos x (sortByPos pos xs)

/-- The position values stored for one column: the `position` field of
every `cards` row whose `list_id` is the given list (order of the rows in
the table; the claimed invariant is about the collection of values, not
their order). -/
def positionsOfList (s : Store) (listId : String) : List Int :=
  (s.cards.filter fun r => r.list_id == listId).map (·.position)

/-- Dense ordering predicate of spec property P1: the position values of a
column with `N` cards are exactly the set 0, 1, …, N-1, with no
duplicates or gaps (multiset equality with the range). -/
def isDense (ps : List Int) : Bool :=
  decide ((ps : Multiset Int) = ((List.range ps.length).map Int.ofNat : List Int))

/-- Model of `convertCardRowToKanbanCard` (services.ts): the client card produced
by `getListsByBoard`; the row carries no action list (`actions` absent,
hence `[]`). -/
def rowToClientCard (r : CardRow) : CCard :=
  { id := r.id
    title := r.title
    description := r.description
    dueDate := r.due_date
    labels := r.labels
    attachments := r.attachments
    members := r.members
    actions := [] }

/-- Model of `DatabaseService.getListsByBoard`: lists ordered by position, each
with its cards filtered by `list_id` and ordered by position. -/
def getListsByBoard (s : Store) : List KList :=
  (sortByPos (·.position) s.lists).map fun lr =>
    { id := lr.id
      title := lr.title
      type := lr.type
      cards := (sortByPos (·.position) (s.cards.filter fun r => r.list_id == lr.id)).map
        rowToClientCard }

/-- Model of `DatabaseService.getCardActions`: the `card_actions` rows of one card,
ordered by timestamp descending. -/
def getCardActions (s : Store) (cardId : String) : List ActionRow :=
  sortByPos (fun a => -(Int.ofNat a.timestamp)) (s.actions.filter fun a => a.card_id == cardId)

/-- Model of `loadCardActions` of `useDatabaseBoardState`: for every card use the
actions of the store when non-empty, otherwise keep those of the card (the cards
coming from `getListsByBoard` carry `[]`). -/
def loadCardActions (s : Store) (lists : List KList) : List KList :=
  lists.map fun l =>
    { l with cards := l.cards.map fun c =>
        let acts := getCardActions s c.id
        { c with actions := if acts.length > 0 then acts else c.actions } }

/-- The in-memory snapshot obtained by pulling the full board from the
store (`getListsByBoard` followed by `loadCardActions`); a function of
the store alone. -/
def storeSnapshot (s : Store) : List KList :=
  loadCardActions s (getListsByBoard s)

/-- The card rows inserted for one list by `saveKanbanData`
(`list.cards.forEach((card, cardIndex) => createCard({ …, position:
cardIndex }))`), starting at index `n`. -/
def rowsOf (listId : String) : Nat → List CCard → List CardRow
  | _, [] => []
  | n, c :: cs =>
      { id := c.id
        list_id := listId
        title := c.title
        description := c.description
        position := Int.ofNat n
        due_date := c.dueDate
        labels := c.labels
        attachments := c.attachments
        members := c.members } :: rowsOf listId (n + 1) cs

/-- The list rows inserted by `saveKanbanData` (`position: listIndex`). -/
def listRowsOf : Nat → List KList → List ListRow
  | _, [] => []
  | n, l :: ls => { id := l.id, title := l.title, type := l.type, position := Int.ofNat n }
      :: listRowsOf (n + 1) ls

/-- Model of `DatabaseService.saveKanbanData` (services.ts lines 340-374): inside
one transaction, delete every card and list of the board, then re-insert
every list with `position = listIndex` and every card with
`position = cardIndex`.  The `card_actions` table is untouched. -/
def saveKanbanData (s : Store) (lists : List KList) : Store :=
  { s with
    lists := listRowsOf 0 lists
    cards := lists.flatMap fun l => rowsOf l.id 0 l.cards }

/-- The authenticated actor of `getCurrentUser` (`useCardActions.ts`):
`none` when no authenticated user is resolvable. -/
structure UserCtx where
  id : String
  name : String
  deriving DecidableEq, Repr

/-- Model of `createAction` of `useCardActions.ts` (lines 58-81): returns `null`
(here `none`) when no authenticated user is found, otherwise the action
object.  The generated id and `Date.now()` timestamp are inputs. -/
def mkAction (user : Option UserCtx) (actionId cardId kind : String)
    (fromL toL : Option String) (ts : Nat) : Option ActionRow :=
  user.map fun u =>
    { id := actionId
      card_id := cardId
      user_id := u.id
      username := u.name
      action := kind
      fromList := fromL
      toList := toL
      timestamp := ts }

/-- The session state of `useDatabaseBoardState` together with its
environment: the in-memory `lists`, the durable store, the
`localStorage` fallback snapshot (`trello_board_state`) and the `error`
state. -/
structure Engine where
  lists : List KList
  store : Store
  cache : Option (List KList) := none
  err : Option String := none
  lastUpdate : Nat := 0
  deriving DecidableEq, Repr

/-- The payload dispatched with the `board-updated` custom event:
`detail: { lists, timestamp }`. -/
structure BoardMsg where
  lists : List KList
  timestamp : Nat
  deriving DecidableEq, Repr

/-- Model of `updateLists` of `useDatabaseBoardState` (lines 343-363).  On store
success: persist the whole board (`saveKanbanData`), set the local state
and dispatch the `board-updated` event with a fresh timestamp.  On store
failure: write the snapshot to the `localStorage` fallback, set the local
state, and dispatch nothing. -/
def updateListsE (e : Engine) (storeOk : Bool) (now : Nat) (newLists : List KList) :
    Engine × Option BoardMsg :=
  if storeOk then
    ({ e with store := saveKanbanData e.store newLists, lists := newLists, lastUpdate := now },
      some { lists := newLists, timestamp := now })
  else
    ({ e with cache := some newLists, lists := newLists, lastUpdate := now }, none)

/-- Model of `updateCardPosition` of `useDatabaseBoardState` (lines 365-412),
success path: one single-row `updateCard` write with the new `list_id`
and `position`; when the destination list differs from the list currently
containing the card (and both are found), one `moved` ledger record is
created and persisted; finally the board is reloaded from the store. -/
def updateCardPositionE (e : Engine) (user : Option UserCtx) (actionId : String) (ts : Nat)
    (cardId newListId : String) (newPosition : Int) : Engine :=
  let oldList? := e.lists.find? fun l => l.cards.any fun c => c.id == cardId
  let newList? := e.lists.find? fun l => l.id == newListId
  let store1 := dbUpdateCard e.store cardId
    { list_id := some newListId, position := some newPosition }
  let store2 :=
    match oldList?, newList? with
    | some ol, some nl =>
      if ¬(ol.id == newListId) then
        match mkAction user actionId cardId "moved" (some ol.title) (some nl.title) ts with
        | some act => dbCreateAction store1 act
        | none => store1
      else store1
    | _, _ => store1
  { e with store := store2, lists := storeSnapshot store2, lastUpdate := ts }

/-- Model of `addCard` of `useDatabaseBoardState` (lines 475-538).  The client
generates the card id before any store call; the store write
(`createCard`) is awaited first.  On success: if no authenticated user is
resolvable the function warns and returns early (store already updated,
local state untouched); otherwise the `created` record is persisted, and
the board is reloaded from the store.  On store failure: only the error
state is set — no local insert, no fallback-cache write. -/
def addCardE (e : Engine) (storeOk : Bool) (user : Option UserCtx)
    (newCardId actionId : String) (ts : Nat) (listId : String) (c : CCard) : Engine :=
  if storeOk then
    let position : Int :=
      Int.ofNat (((e.lists.find? fun l => l.id == listId).map fun l => l.cards.length).getD 0)
    let row : CardRow :=
      { id := newCardId
        list_id := listId
        title := c.title
        description := c.description
        position := position
        due_date := c.dueDate
        labels := c.labels
        attachments := c.attachments
        members := c.members }
    let store1 := dbCreateCard e.store row
    match mkAction user actionId newCardId "created" none none ts with
    | none => { e with store := store1 }
    | some act =>
      let store2 := dbCreateAction store1 act
      { e with store := store2, lists := storeSnapshot store2, lastUpdate := ts }
  else
    { e with err := some "Failed to add card" }

/-- Model of `deleteCard` of `useDatabaseBoardState` (lines 623-654), success
path: the delete action is only appended to the local card (not persisted
to the `card_actions` table); the card row is deleted and the board
reloaded from the store. -/
def deleteCardE (e : Engine) (ts : Nat) (cardId : String) : Engine :=
  let store1 := dbDeleteCard e.store cardId
  { e with store := store1, lists := storeSnapshot store1, lastUpdate := ts }

/-- Model of the `replace` call on `overId` that removes the first
occurrence of the `list-` marker: the ids of this application never
contain the marker in the middle, so this is stripping the marker when
present. -/
def dropListMarker (s : String) : String :=
  if s.startsWith "list-" then s.drop 5 else s

/-- JavaScript `Array.prototype.findIndex`: index of the first match, or
`-1`. -/
def findIndexInt {α : Type} (p : α → Bool) (l : List α) : Int :=
  match l.findIdx? p with
  | some i => Int.ofNat i
  | none => -1

/-- JavaScript `splice` start-index clamping: a negative index counts
from the end, an overlarge index is clamped to the length. -/
def jsSpliceStart (len : Nat) (i : Int) : Nat :=
  if i < 0 then (Int.ofNat len + i).toNat else min i.toNat len

/-- The `arrayMove` helper of the dnd-kit library (external collaborator,
modelled for in-range indices): remove the element at `fromIdx` and
re-insert it at `toIdx`. -/
def arrayMove {α : Type} (l : List α) (fromIdx toIdx : Int) : List α :=
  let f := jsSpliceStart l.length fromIdx
  match l.get? f with
  | none => l
  | some x =>
    let rest := l.eraseIdx f
    let t := if toIdx < 0 then jsSpliceStart l.length toIdx else min toIdx.toNat rest.length
    rest.take t ++ x :: rest.drop t

/-- Model of `lists.find(list => (list.cards || []).some(card => card.id ===
activeId))`: the list currently containing the dragged card. -/
def findActiveList (lists : List KList) (activeId : String) : Option KList :=
  lists.find? fun l => l.cards.any fun c => c.id == activeId

/-- The destination-list resolver shared by `handleDragOver` and
`handleDragEnd` (KanbanBoard.tsx lines 206-210 and 289-293): direct list
drop, `list-`-prefixed drop, or card-to-card drop. -/
def findOverList (lists : List KList) (overId : String) : Option KList :=
  lists.find? fun l =>
    l.id == overId || l.id == dropListMarker overId || l.cards.any fun c => c.id == overId

/-- The cross-list snapshot rewrite of `handleDragOver` (lines 222-246):
remove the card from the source list; in the destination list insert it
before the card being hovered, or append it when hovering the list
area. -/
def crossMoveLists (lists : List KList) (alId olId : String) (activeCard : CCard)
    (activeId overId : String) : List KList :=
  lists.map fun list =>
    if list.id == alId then
      { list with cards := list.cards.filter fun c => ¬(c.id == activeId) }
    else if list.id == olId then
      match list.cards.findIdx? (fun c => c.id == overId) with
      | some overIndex =>
        { list with cards := list.cards.take overIndex ++ activeCard :: list.cards.drop overIndex }
      | none => { list with cards := list.cards ++ [activeCard] }
    else list

/-- The externally visible outcome of a drag handler: which callback is
invoked with which arguments (or no callback at all). -/
inductive DragEffect where
  | none
  | reorderLists (newLists : List KList)
  | cardPosition (cardId : String) (listId : String) (pos : Int)
  | listsUpdate (newLists : List KList)
  deriving DecidableEq, Repr

/-- Model of `handleDragOver` of `KanbanBoard.tsx` (lines 187-248).  All UI-only
statements (`setActiveCard` etc.) are omitted; the result is the call to
`onListsUpdate`, or no call. -/
def handleDragOver (role : Role) (lists : List KList) (activeId : String)
    (over? : Option String) : DragEffect :=
  match over? with
  | none => DragEffect.none
  | some overId =>
    if activeId == overId then DragEffect.none
    else if !(role == Role.admin) && !(role == Role.mod) then DragEffect.none
    else
      match (lists.flatMap (·.cards)).find? (fun c => c.id == activeId) with
      | none => DragEffect.none
      | some activeCard =>
        match findActiveList lists activeId, findOverList lists overId with
        | some al, some ol =>
          if role == Role.mod && ol.type == LType.open_ then DragEffect.none
          else if ¬(al.id == ol.id) then
            DragEffect.listsUpdate (crossMoveLists lists al.id ol.id activeCard activeId overId)
          else DragEffect.none
        | _, _ => DragEffect.none

/-- Model of `handleDragEnd` of `KanbanBoard.tsx` (lines 250-370).
`hasPosUpdate` tells whether the `onCardPositionUpdate` callback is
provided (it is, in `Index.tsx`); without it the handler falls back to
`onListsUpdate`. -/
def handleDragEnd (role : Role) (lists : List KList) (activeId : String)
    (over? : Option String) (hasPosUpdate : Bool) : DragEffect :=
  match over? with
  | none => DragEffect.none
  | some overId =>
    if activeId.startsWith "list-" && overId.startsWith "list-" then
      if !(role == Role.admin) && !(role == Role.mod) then DragEffect.none
      else
        let aId := dropListMarker activeId
        let oId := dropListMarker overId
        if ¬(aId == oId) then
          let ai := findIndexInt (fun l => l.id == aId) lists
          let oi := findIndexInt (fun l => l.id == oId) lists
          if ¬(ai == oi) then DragEffect.reorderLists (arrayMove lists ai oi)
          else DragEffect.none
        else DragEffect.none
    else
      if !(role == Role.admin) && !(role == Role.mod) then DragEffect.none
      else
        match findActiveList lists activeId, findOverList lists overId with
        | some al, some ol =>
          if role == Role.mod && ol.type == LType.open_ then DragEffect.none
          else if al.id == ol.id then
            let ai := findIndexInt (fun c => c.id == activeId) al.cards
            let oi := findIndexInt (fun c => c.id == overId) al.cards
            if ¬(ai == oi) then
              if hasPosUpdate then DragEffect.cardPosition activeId ol.id oi
              else
                DragEffect.listsUpdate (lists.map fun list =>
                  if list.id == al.id then { list with cards := arrayMove al.cards ai oi }
                  else list)
            else DragEffect.none
          else
            if role == Role.mod && ol.type == LType.open_ then DragEffect.none
            else
              let overCard? := ol.cards.find? fun c => c.id == overId
              let newPos : Int :=
                match overCard? with
                | some _ => findIndexInt (fun c => c.id == overId) ol.cards
                | none => Int.ofNat ol.cards.length
              if hasPosUpdate then DragEffect.cardPosition activeId ol.id newPos
              else
                match al.cards.find? (fun c => c.id == activeId) with
                | some activeCard =>
                  DragEffect.listsUpdate (crossMoveLists lists al.id ol.id activeCard activeId overId)
                | none => DragEffect.none
        | _, _ => DragEffect.none

/-- Apply the outcome of a drag handler to the session, as wired in
`Index.tsx`: `onCardPositionUpdate = updateCardPosition`,
`onListsUpdate = handleLocalUpdate` (which calls `updateLists`). -/
def applyDragEffect (e : Engine) (user : Option UserCtx) (actionId : String) (ts : Nat) :
    DragEffect → Engine
  | DragEffect.none => e
  | DragEffect.reorderLists nl => (updateListsE e true ts nl).1
  | DragEffect.listsUpdate nl => (updateListsE e true ts nl).1
  | DragEffect.cardPosition cid lid pos => updateCardPositionE e user actionId ts cid lid pos

/-- One card drag, end to end: `handleDragEnd` followed by the wired
callback. -/
def moveCardPipeline (e : Engine) (role : Role) (user : Option UserCtx) (actionId : String)
    (ts : Nat) (activeId : String) (over? : Option String) (hasPosUpdate : Bool) : Engine :=
  applyDragEffect e user actionId ts (handleDragEnd role e.lists activeId over? hasPosUpdate)

/-- The drag-over step, end to end. -/
def dragOverPipeline (e : Engine) (user : Option UserCtx) (actionId : String) (ts : Nat)
    (role : Role) (activeId : String) (over? : Option String) : Engine :=
  applyDragEffect e user actionId ts (handleDragOver role e.lists activeId over?)

/-- One browser tab of the viewer: its in-memory snapshot, the timestamp
of the last applied update, and a counter of network requests it has
issued (to express that an operation is network-free). -/
structure Tab where
  lists : List KList
  lastUpdate : Nat
  netRequests : Nat
  deriving DecidableEq, Repr

/-- Model of `handleBoardUpdate` (`useDatabaseBoardState` lines 658-664): a
received `board-updated` event replaces the snapshot if and only if the
incoming timestamp is strictly greater than `lastUpdate`; no network
request is issued. -/
def handleBoardUpdate (m : BoardMsg) (t : Tab) : Tab :=
  if m.timestamp > t.lastUpdate then
    { t with lists := m.lists, lastUpdate := m.timestamp }
  else t

/-- Identifier of one of two open tabs. -/
inductive TabId where
  | A
  | B
  deriving DecidableEq, Repr

/-- Two open browser tabs of the same viewer. -/
structure TwoTabs where
  tabA : Tab
  tabB : Tab
  deriving DecidableEq, Repr

/-- Delivery of the `board-updated` CustomEvent through
`window.dispatchEvent` (`updateLists`, line 353): per the DOM event
model, `dispatchEvent`
on a `window` object synchronously invokes the listeners registered on
that same window — a `CustomEvent` is not a cross-context channel (unlike
`localStorage` `storage` events), so the listener of the other tab is not
invoked. -/
def dispatchBoardUpdated (src : TabId) (m : BoardMsg) (w : TwoTabs) : TwoTabs :=
  match src with
  | TabId.A => { w with tabA := handleBoardUpdate m w.tabA }
  | TabId.B => { w with tabB := handleBoardUpdate m w.tabB }

/-- One tick of the periodic sync interval (`useDatabaseBoardState`
lines 670-687): pull the full board from the store (one network
request), and replace the local snapshot wholesale when it differs from
the pulled one. -/
def sessionTick (store : Store) (t : Tab) (now : Nat) : Tab :=
  let latest := storeSnapshot store
  if ¬(latest == t.lists) then
    { lists := latest, lastUpdate := now, netRequests := t.netRequests + 1 }
  else { t with netRequests := t.netRequests + 1 }

/-- Number of `moved` records in a ledger. -/
def countMoved (acts : List ActionRow) : Nat :=
  (acts.filter fun a => a.action == "moved").length

/-- Test fixture: card `c1`. -/
def cA : CCard := { id := "c1", title := "A" }

/-- Test fixture: card `c2`. -/
def cB : CCard := { id := "c2", title := "B" }

/-- Test fixture: card `c3`. -/
def cC : CCard := { id := "c3", title := "C" }

/-- Test fixture: an `open` list holding three cards. -/
def lOpen : KList := { id := "l1", title := "Todo", type := LType.open_, cards := [cA, cB, cC] }

/-- Test fixture: a `closed` (restricted) list holding two cards. -/
def lClosed : KList := { id := "l2", title := "Staff", type := LType.closed, cards := [cA, cB] }

/-- Test fixture: an empty `open` list. -/
def lOpenEmpty : KList := { id := "l3", title := "Done", type := LType.open_, cards := [] }

/-- Test fixture: an empty durable store. -/
def stEmpty : Store := { lists := [], cards := [], actions := [] }

/-- Test fixture: an authenticated user. -/
def uX : UserCtx := { id := "u1", name := "alice" }

/-- Test fixture for the ordering invariant: a session whose store was
populated by a full save of the single open list. -/
def e1 : Engine := { lists := [lOpen], store := saveKanbanData stEmpty [lOpen] }

/-- Test fixture: the session after the accepted within-column move of
`c3` to index 0 (the drag `handleDragEnd` hands to
`updateCardPosition`). -/
def e1move : Engine := updateCardPositionE e1 (some uX) "a1" 5 "c3" "l1" 0

/-- Test fixture for Scenario C: a session over one empty open list with
an empty fallback cache. -/
def eC2 : Engine := { lists := [lOpenEmpty], store := stEmpty, cache := none }

/-- Test fixture: a board with a restricted and an open list, as one
session sees it. -/
def e3 : Engine := { lists := [lClosed, lOpenEmpty], store := stEmpty }

/-- Test fixture: a session over the single open list. -/
def e6 : Engine := { lists := [lOpen], store := stEmpty }

/-- Test fixture: a session over the restricted list `l2` and the open
list `l3`, used for a cross-column move. -/
def e7 : Engine := { lists := [lClosed, lOpenEmpty], store := stEmpty }

/-- Test fixture (cross-tab): the old snapshot of both tabs. -/
def oldL9 : List KList := [lOpen]

/-- Test fixture (cross-tab): the snapshot after tab A moved a card. -/
def newL9 : List KList := [lOpenEmpty]

/-- Test fixture: tab A session before its local mutation. -/
def eA9 : Engine := { lists := oldL9, store := stEmpty, lastUpdate := 0 }

/-- Test fixture: the two-tab world right after tab A applied its local
mutation (snapshot `newL9`, timestamp 5) while tab B still holds the old
snapshot. -/
def w9 : TwoTabs :=
  { tabA := { lists := newL9, lastUpdate := 5, netRequests := 1 }
    tabB := { lists := oldL9, lastUpdate := 0, netRequests := 0 } }

/-- Test fixture: the message tab A dispatches. -/
def m9 : BoardMsg := { lists := newL9, timestamp := 5 }

/-- Test fixture: a stored card row. -/
def r10 : CardRow :=
  { id := "c9", list_id := "l1", title := "T", description := some "D", position := 2,
    labels := some "[]" }

/-- Test fixture: another stored card row. -/
def rOther : CardRow := { id := "c8", list_id := "l1", title := "U", position := 3 }

/-- Test fixture: an update object carrying only a new position. -/
def u10 : CardUpdates := { position := some 7 }

/-- Test fixture: a store holding the two rows. -/
def s10 : Store := { lists := [], cards := [r10, rOther], actions := [] }

/-- C4: for role `default` the visible lists are exactly the `open` ones,
independent of the public-view flag; in particular every visible list is
`open`, so a default viewer never observes a closed or hidden column. -/
theorem visibleLists_default_eq (p : Bool) (lists : List KList) :
    visibleLists p Role.default lists = lists.filter (fun l => l.type == LType.open_) ∧
    (visibleLists p Role.default lists).all (fun l => l.type == LType.open_) = true := by
  have h : visibleLists p Role.default lists
      = lists.filter (fun l => l.type == LType.open_) := by
    unfold visibleLists
    cases p <;> simp
  refine ⟨h, ?_⟩
  rw [h, List.all_eq_true]
  intro l hl
  exact (List.mem_filter.mp hl).2

/-- C8: one tick of the periodic sync replaces the local snapshot
wholesale with the pulled store content whenever the two differ, so after
at most one reconciliation interval (one pull, one network request) the
session snapshot equals the store content, assuming no further local
mutations. -/
theorem sessionTick_converges (store : Store) (t : Tab) (now : Nat) :
    (sessionTick store t now).lists = storeSnapshot store ∧
    (sessionTick store t now).netRequests = t.netRequests + 1 := by
  unfold sessionTick
  by_cases h : (storeSnapshot store == t.lists) = true
  · have he : storeSnapshot store = t.lists := by simpa using h
    simp [h, he]
  · simp [h]

/-- C9 counterexample: tab A has applied a local mutation (snapshot
`newL9`) and dispatches the `board-updated` custom event; the message is
exactly what `updateLists` emits on success, but `window.dispatchEvent`
delivers only to listeners of the dispatching window, so tab B keeps the
old snapshot — it does not come to match within the broadcast cycle,
contrary to the claim. -/
theorem boardUpdate_not_cross_tab_counterexample :
    (updateListsE eA9 true 5 newL9).2 = some m9 ∧
    (dispatchBoardUpdated TabId.A m9 w9).tabB.lists = oldL9 ∧
    oldL9 ≠ newL9 := by
  exact ⟨rfl, rfl, by decide⟩

/-- C9 amended: a receiving `board-updated` listener replaces its
snapshot if and only if the incoming timestamp is strictly greater than
its last-applied timestamp, and issues no network request while doing so;
but the event dispatched by tab A reaches only listeners registered in
tab A, never tab B. -/
theorem boardUpdate_guard_and_same_context (m : BoardMsg) (t : Tab) (w : TwoTabs) :
    ((handleBoardUpdate m t).lists
      = if m.timestamp > t.lastUpdate then m.lists else t.lists) ∧
    (handleBoardUpdate m t).netRequests = t.netRequests ∧
    (dispatchBoardUpdated TabId.A m w).tabB = w.tabB := by
  refine ⟨?_, ?_, rfl⟩ <;>
    · unfold handleBoardUpdate
      by_cases h : m.timestamp > t.lastUpdate <;> simp [h]

/-- C10: `DatabaseService.updateCard` is a frame-preserving partial
update: every field absent (`none`, SQL NULL) in the updates object keeps
its stored value under `COALESCE`, so only present fields change; rows
with a different id are untouched. -/
theorem updateCard_frame (s : Store) (cardId : String) (u : CardUpdates) (r : CardRow) :
    (u.title = none → (coalesceRow r u).title = r.title) ∧
    (u.description = none → (coalesceRow r u).description = r.description) ∧
    (u.position = none → (coalesceRow r u).position = r.position) ∧
    (u.due_date = none → (coalesceRow r u).due_date = r.due_date) ∧
    (u.labels = none → (coalesceRow r u).labels = r.labels) ∧
    (u.attachments = none → (coalesceRow r u).attachments = r.attachments) ∧
    (u.members = none → (coalesceRow r u).members = r.members) ∧
    (u.list_id = none → (coalesceRow r u).list_id = r.list_id) ∧
    (∀ r' ∈ s.cards, ¬(r'.id = cardId) → r' ∈ (dbUpdateCard s cardId u).cards) := by
  refine ⟨?_, ?_, ?_, ?_, ?_, ?_, ?_, ?_, ?_⟩
  all_goals try (intro h; simp [coalesceRow, coalesceOpt, h])
  intro r' hr hne
  have hbeq : (r'.id == cardId) = false := by simpa using hne
  unfold dbUpdateCard
  have hkeep : (if r'.id == cardId then coalesceRow r' u else r') = r' := by simp [hbeq]
  have hmem := List.mem_map_of_mem (fun rr => if rr.id == cardId then coalesceRow rr u else rr) hr
  simp only [hbeq] at hmem
  simpa using hmem

/-- C10 witness: with an update object carrying only `position`, the
title, description and labels of the row keep their stored values, and a
row with a different id is untouched. -/
theorem updateCard_frame_witness :
    (coalesceRow r10 u10).title = r10.title ∧
    (coalesceRow r10 u10).description = r10.description ∧
    (coalesceRow r10 u10).labels = r10.labels ∧
    rOther ∈ (dbUpdateCard s10 "c9" u10).cards := by
  have h := updateCard_frame s10 "c9" u10 r10
  exact ⟨h.1 rfl, h.2.1 rfl, h.2.2.2.2.1 rfl,
    h.2.2.2.2.2.2.2.2 rOther (by simp [s10]) (by decide)⟩

/-- C2 counterexample (Scenario C): with the durable store unreachable,
`addCard` aborts in its `catch` block — the card with the client
generated id does not appear in the in-memory snapshot and the fallback
cache stays empty, contrary to the claim. -/
theorem addCard_store_down_counterexample :
    (addCardE eC2 false (some uX) "cardX" "a1" 7 "l3" { id := "", title := "New" }).lists
      = eC2.lists ∧
    (eC2.lists.any fun l => l.cards.any fun c => c.id == "cardX") = false ∧
    (addCardE eC2 false (some uX) "cardX" "a1" 7 "l3" { id := "", title := "New" }).cache
      = none := by
  refine ⟨rfl, by decide, rfl⟩

/-- C2 amended: when the store write fails, `addCard` leaves the
in-memory snapshot, the fallback cache and the store unchanged and only
sets the error state; the client-generated identifier reaches the store
(and from there the snapshot) only when the write succeeds. -/
theorem addCard_store_down_no_insert (e : Engine) (user : Option UserCtx)
    (newCardId actionId : String) (ts : Nat) (listId : String) (c : CCard) :
    (addCardE e false user newCardId actionId ts listId c).lists = e.lists ∧
    (addCardE e false user newCardId actionId ts listId c).cache = e.cache ∧
    (addCardE e false user newCardId actionId ts listId c).store = e.store ∧
    (addCardE e false user newCardId actionId ts listId c).err.isSome = true ∧
    ∀ u : UserCtx,
      ((addCardE e true (some u) newCardId actionId ts listId c).store.cards.any
        fun r => r.id == newCardId) = true := by
  refine ⟨rfl, rfl, rfl, rfl, ?_⟩
  intro u
  simp [addCardE, mkAction, dbCreateAction, dbCreateCard]

/-- C3: a card drag by a `mod` viewer whose resolved destination list is
`open` is denied in both drag handlers: no callback fires, so neither the
in-memory snapshot nor the durable store changes, regardless of the
source list. -/
theorem mod_move_to_open_denied (e : Engine) (user : Option UserCtx) (actionId : String)
    (ts : Nat) (activeId overId : String) (hasPosUpdate : Bool) (ol : KList)
    (hA : activeId.startsWith "list-" = false)
    (hO : findOverList e.lists overId = some ol)
    (hT : ol.type = LType.open_) :
    handleDragOver Role.mod e.lists activeId (some overId) = DragEffect.none ∧
    handleDragEnd Role.mod e.lists activeId (some overId) hasPosUpdate = DragEffect.none ∧
    dragOverPipeline e user actionId ts Role.mod activeId (some overId) = e ∧
    moveCardPipeline e Role.mod user actionId ts activeId (some overId) hasPosUpdate = e := by
  have hma : (Role.mod == Role.admin) = false := rfl
  have hmm : (Role.mod == Role.mod) = true := rfl
  have h1 : handleDragOver Role.mod e.lists activeId (some overId) = DragEffect.none := by
    unfold handleDragOver
    cases hEq : (activeId == overId) with
    | true => simp [hEq]
    | false =>
      cases hF : (e.lists.flatMap (·.cards)).find? (fun c => c.id == activeId) with
      | none => simp [hEq, hF, hma, hmm]
      | some ac =>
        cases hAl : findActiveList e.lists activeId with
        | none => simp [hEq, hF, hAl, hO, hma, hmm]
        | some al => simp [hEq, hF, hAl, hO, hT, hma, hmm]
  have h2 : handleDragEnd Role.mod e.lists activeId (some overId) hasPosUpdate
      = DragEffect.none := by
    unfold handleDragEnd
    have hS : (activeId.startsWith "list-" && overId.startsWith "list-") = false := by
      simp [hA]
    cases hAl : findActiveList e.lists activeId with
    | none => simp [hS, hAl, hO, hma, hmm]
    | some al => simp [hS, hAl, hO, hT, hma, hmm]
  refine ⟨h1, h2, ?_, ?_⟩
  · unfold dragOverPipeline
    rw [h1]
    rfl
  · unfold moveCardPipeline
    rw [h2]
    rfl

/-- C3 witness: a `mod` viewer dragging card `c1` out of the restricted
list into the open list `l3` changes nothing. -/
theorem mod_move_to_open_denied_witness :
    handleDragOver Role.mod e3.lists "c1" (some "l3") = DragEffect.none ∧
    handleDragEnd Role.mod e3.lists "c1" (some "l3") true = DragEffect.none ∧
    dragOverPipeline e3 (some uX) "a1" 5 Role.mod "c1" (some "l3") = e3 ∧
    moveCardPipeline e3 Role.mod (some uX) "a1" 5 "c1" (some "l3") true = e3 :=
  mod_move_to_open_denied e3 (some uX) "a1" 5 "c1" "l3" true lOpenEmpty
    (by decide) (by decide) rfl

/-- C5 counterexample: a `mod` viewer reordering card `c1` over `c2`
inside the single `open` list: the destination-open check fires even
though source and destination coincide, so the handler emits no effect —
the within-column reorder the claim requires (a position update of `c1`
to index 1) is dropped. -/
theorem mod_reorder_in_open_dropped_counterexample :
    handleDragEnd Role.mod [lOpen] "c1" (some "c2") true = DragEffect.none ∧
    DragEffect.none ≠ DragEffect.cardPosition "c1" "l1" 1 := by
  exact ⟨by decide, by decide⟩

/-- C5 amended: a `mod` viewer may reorder a card within a column only
when that column is not `open`: with source = destination not open and
distinct indices, `handleDragEnd` emits exactly the position update; a
reorder inside an `open` column is silently dropped (see the
counterexample). -/
theorem mod_reorder_nonopen_applied (lists : List KList) (activeId overId : String)
    (al : KList)
    (hA : activeId.startsWith "list-" = false)
    (hAl : findActiveList lists activeId = some al)
    (hOl : findOverList lists overId = some al)
    (hT : ¬(al.type = LType.open_))
    (hI : ¬(findIndexInt (fun c => c.id == activeId) al.cards
        = findIndexInt (fun c => c.id == overId) al.cards)) :
    handleDragEnd Role.mod lists activeId (some overId) true
      = DragEffect.cardPosition activeId al.id
          (findIndexInt (fun c => c.id == overId) al.cards) := by
  unfold handleDragEnd
  have hma : (Role.mod == Role.admin) = false := rfl
  have hmm : (Role.mod == Role.mod) = true := rfl
  have hS : (activeId.startsWith "list-" && overId.startsWith "list-") = false := by
    simp [hA]
  have hTb : (al.type == LType.open_) = false := by
    simpa using hT
  have hIb : ((findIndexInt (fun c => c.id == activeId) al.cards
      == findIndexInt (fun c => c.id == overId) al.cards)) = false := by
    simpa using hI
  simp [hS, hAl, hOl, hTb, hIb, hma, hmm]

/-- C5 amended witness: inside the restricted list, the `mod` reorder of
`c1` over `c2` is applied as a position update to index 1. -/
theorem mod_reorder_nonopen_applied_witness :
    handleDragEnd Role.mod [lClosed] "c1" (some "c2") true
      = DragEffect.cardPosition "c1" "l2" 1 := by
  have h := mod_reorder_nonopen_applied [lClosed] "c1" "c2" lClosed
    (by decide) (by decide) (by decide) (by decide) (by decide)
  exact h.trans (by decide)

/-- C6: dropping a card on its own column at its own index is a no-op
for every role: `handleDragEnd` emits no effect, the whole session state
(snapshot, store, cache) is unchanged, and in particular no record is
appended to the ledger. -/
theorem same_index_drop_noop (e : Engine) (role : Role) (user : Option UserCtx)
    (actionId : String) (ts : Nat) (activeId overId : String) (hasPosUpdate : Bool)
    (al : KList)
    (hA : activeId.startsWith "list-" = false)
    (hAl : findActiveList e.lists activeId = some al)
    (hOl : findOverList e.lists overId = some al)
    (hI : findIndexInt (fun c => c.id == activeId) al.cards
        = findIndexInt (fun c => c.id == overId) al.cards) :
    handleDragEnd role e.lists activeId (some overId) hasPosUpdate = DragEffect.none ∧
    moveCardPipeline e role user actionId ts activeId (some overId) hasPosUpdate = e ∧
    (moveCardPipeline e role user actionId ts activeId (some overId)
      hasPosUpdate).store.actions = e.store.actions := by
  have hS : (activeId.startsWith "list-" && overId.startsWith "list-") = false := by
    simp [hA]
  have h2 : handleDragEnd role e.lists activeId (some overId) hasPosUpdate
      = DragEffect.none := by
    unfold handleDragEnd
    cases role with
    | default => simp [hS]
    | admin => simp [hS, hAl, hOl, hI]
    | mod =>
      by_cases hTy : (al.type == LType.open_) = true
      · simp [hS, hAl, hOl, hTy]
      · simp [hS, hAl, hOl, hI, hTy]
  refine ⟨h2, ?_, ?_⟩
  · unfold moveCardPipeline
    rw [h2]
    rfl
  · unfold moveCardPipeline
    rw [h2]
    rfl

/-- C6 witness: an admin dropping `c1` on itself in the open list leaves
the session and the ledger unchanged. -/
theorem same_index_drop_noop_witness :
    moveCardPipeline e6 Role.admin (some uX) "a1" 5 "c1" (some "c1") true = e6 ∧
    (moveCardPipeline e6 Role.admin (some uX) "a1" 5 "c1" (some "c1") true).store.actions
      = e6.store.actions := by
  have h := same_index_drop_noop e6 Role.admin (some uX) "a1" 5 "c1" "c1" true lOpen
    (by decide) (by decide) (by decide) (by decide)
  exact ⟨h.2.1, h.2.2⟩

/-- C7: an accepted card move by an authenticated actor creates exactly
one `moved` ledger record if and only if the destination list differs
from the list currently holding the card; a within-column reorder
appends nothing. -/
theorem moved_record_iff_cross_list (e : Engine) (u : UserCtx) (actionId : String) (ts : Nat)
    (cardId newListId : String) (pos : Int) (ol nl : KList)
    (hOld : e.lists.find? (fun l => l.cards.any fun c => c.id == cardId) = some ol)
    (hNew : e.lists.find? (fun l => l.id == newListId) = some nl) :
    countMoved (updateCardPositionE e (some u) actionId ts cardId newListId pos).store.actions
      = countMoved e.store.actions + (if ol.id = newListId then 0 else 1) := by
  unfold updateCardPositionE
  simp only [hOld, hNew]
  by_cases hid : (ol.id == newListId) = true
  · have heq : ol.id = newListId := by simpa using hid
    simp [hid, heq, dbUpdateCard, countMoved]
  · have hne : ¬(ol.id = newListId) := by simpa using hid
    simp [hid, hne, mkAction, dbCreateAction, dbUpdateCard, countMoved, List.filter_append]

/-- C7 witness: moving `c1` from the restricted list into the open list
`l3` appends exactly one `moved` record to the empty ledger. -/
theorem moved_record_iff_cross_list_witness :
    countMoved (updateCardPositionE e7 (some uX) "a1" 5 "c1" "l3" 0).store.actions
      = countMoved e7.store.actions + 1 := by
  have h := moved_record_iff_cross_list e7 uX "a1" 5 "c1" "l3" 0 lClosed lOpenEmpty
    (by decide) (by decide)
  rw [h, if_neg (by decide)]

/-- C1 counterexample: starting from the store produced by a full save of
one open list with three cards at positions 0,1,2, the accepted move of
`c3` to index 0 (what `handleDragEnd` hands to `updateCardPosition`)
persists only the moved row, leaving the column positions 0,1,0 — a
duplicate, not the claimed dense set 0,1,2. -/
theorem positions_not_dense_counterexample :
    positionsOfList e1move.store "l1" = [0, 1, 0] ∧
    isDense (positionsOfList e1move.store "l1") = false := by
  exact ⟨by decide, by decide⟩

/-- The position values of the rows inserted for one list, starting at
index `n`. -/
theorem rowsOf_map_position (lid : String) (cs : List CCard) :
    ∀ n : Nat, (rowsOf lid n cs).map (·.position)
      = (List.range cs.length).map (fun i => Int.ofNat (n + i)) := by
  induction cs with
  | nil => intro n; rfl
  | cons c cs ih =>
    intro n
    have hrange : List.range (cs.length + 1) = 0 :: (List.range cs.length).map Nat.succ :=
      List.range_succ_eq_map cs.length
    simp only [rowsOf, List.map_cons, List.length_cons, hrange, List.map_map, ih (n + 1),
      List.cons.injEq]
    refine ⟨by simp, ?_⟩
    refine List.map_congr_left ?_
    intro i _
    simp only [Function.comp_apply]
    congr 1
    omega

/-- Starting at index 0 the inserted positions are exactly the range. -/
theorem rowsOf_positions_range (lid : String) (cs : List CCard) :
    (rowsOf lid 0 cs).map (·.position) = (List.range cs.length).map Int.ofNat := by
  rw [rowsOf_map_position lid cs 0]
  exact List.map_congr_left fun i _ => by simp

/-- All rows inserted for a list carry that list id. -/
theorem rowsOf_filter_self (lid : String) (cs : List CCard) :
    ∀ n : Nat, (rowsOf lid n cs).filter (fun r => r.list_id == lid) = rowsOf lid n cs := by
  induction cs with
  | nil => intro n; rfl
  | cons c cs ih =>
    intro n
    simp [rowsOf, List.filter_cons, ih (n + 1)]

/-- Rows inserted for a different list never survive the filter. -/
theorem rowsOf_filter_ne (lid lid' : String) (h : ¬(lid = lid')) (cs : List CCard) :
    ∀ n : Nat, (rowsOf lid n cs).filter (fun r => r.list_id == lid') = [] := by
  induction cs with
  | nil => intro n; rfl
  | cons c cs ih =>
    intro n
    simp [rowsOf, List.filter_cons, h, ih (n + 1)]

/-- If no list of the batch has the filtered id, no inserted row
survives. -/
theorem flatMap_rows_filter_ne (lid : String) (ls : List KList)
    (h : ∀ l ∈ ls, ¬(l.id = lid)) :
    (ls.flatMap fun l => rowsOf l.id 0 l.cards).filter (fun r => r.list_id == lid) = [] := by
  induction ls with
  | nil => rfl
  | cons x xs ih =>
    simp only [List.flatMap_cons, List.filter_append]
    rw [rowsOf_filter_ne x.id lid (h x (by simp)) x.cards 0,
      ih fun l' hl' => h l' (by simp [hl'])]
    rfl

/-- With pairwise distinct list ids, the rows surviving the filter for
`l.id` are exactly the rows inserted for `l`. -/
theorem flatMap_rows_filter_eq (ls : List KList) (l : KList)
    (hN : (ls.map (·.id)).Nodup) (hl : l ∈ ls) :
    (ls.flatMap fun l' => rowsOf l'.id 0 l'.cards).filter (fun r => r.list_id == l.id)
      = rowsOf l.id 0 l.cards := by
  induction ls with
  | nil => cases hl
  | cons x xs ih =>
    have hnd : (∀ y ∈ xs, ¬(y.id = x.id)) ∧ (xs.map (·.id)).Nodup := by
      simpa using hN
    rcases List.mem_cons.mp hl with h | h
    · subst h
      simp only [List.flatMap_cons, List.filter_append]
      rw [rowsOf_filter_self _ _ 0, flatMap_rows_filter_ne _ xs hnd.1]
      simp
    · have hxid : ¬(x.id = l.id) := fun heq => hnd.1 l h heq.symm
      simp only [List.flatMap_cons, List.filter_append]
      rw [rowsOf_filter_ne x.id l.id hxid x.cards 0, ih hnd.2 h]
      rfl

/-- C1 amended: the dense ordering 0, 1, …, N-1 holds for the state a
full-board save (`updateLists` → `saveKanbanData`) writes — every column
is rewritten with positions equal to the card array indices — but it is
not preserved by the single-row `updateCardPosition` write, by `addCard`
(position = current column size) or by `deleteCard` (no renumbering of
survivors), as the counterexample shows. -/
theorem saveKanban_positions_dense (s : Store) (lists : List KList) (l : KList)
    (hN : (lists.map (·.id)).Nodup) (hl : l ∈ lists) :
    positionsOfList (saveKanbanData s lists) l.id
      = (List.range l.cards.length).map Int.ofNat ∧
    isDense (positionsOfList (saveKanbanData s lists) l.id) = true := by
  have h1 : positionsOfList (saveKanbanData s lists) l.id
      = (List.range l.cards.length).map Int.ofNat := by
    unfold positionsOfList saveKanbanData
    simp only []
    rw [flatMap_rows_filter_eq lists l hN hl, rowsOf_positions_range]
  refine ⟨h1, ?_⟩
  rw [h1]
  simp [isDense, List.length_map, List.length_range]

/-- C1 amended witness: a full save of two lists with distinct ids gives
the second list the dense positions 0, 1. -/
theorem saveKanban_positions_dense_witness :
    positionsOfList (saveKanbanData stEmpty [lOpen, lClosed]) lClosed.id
      = (List.range lClosed.cards.length).map Int.ofNat ∧
    isDense (positionsOfList (saveKanbanData stEmpty [lOpen, lClosed]) lClosed.id) = true :=
  saveKanban_positions_dense stEmpty [lOpen, lClosed] lClosed (by decide) (by decide)

end Kanban
